import Mathlib

/-!
Verification development for the ImageFromImage submission orchestrator.

The definitions below are a shallow embedding of the JavaScript sources:

* `processImageBatch` embeds `Manager.processImageBatch` (src/manager.js):
  the sequential per-batch loop with its deferred-attribution bookkeeping
  (`previousImagePath` / `successStatusForPreviousImage`), the EXIF skip
  check, the handler call, and the two batch-end flush branches.
* `chatGptProcessImage` embeds the retry loop of
  `ChatGptHandler.processImage` (src/handlers/chatgpt_handler.js).
* `buildPairTasks` / `sortDirs` embed the pairing loop of
  `Manager.runRecursiveMode` together with `FileManager.findSubdirectories`.
* `aggregateSummaries` / `runPairTask` embed the per-pair task wrapper and
  the field-wise aggregation of `Manager.runRecursiveMode`.
* `limiterStep` models the external p-limit concurrency primitive.

Units are identified by their index in the batch list.  Each unit carries a
script describing what the external world (EXIF store, handler/browser)
does for it, so the embedded pipeline is a deterministic function of the
script.
-/

namespace ImageFromImage

/-- The per-batch summary object of `Manager.processImageBatch`:
`{ processed, skipped, success, failed, submitErrors, exifErrors }`. -/
structure Summary where
  processed : Nat
  skipped : Nat
  success : Nat
  failed : Nat
  submitErrors : Nat
  exifErrors : Nat
deriving DecidableEq, Repr

/-- The all-zero summary every batch and every pair task starts from. -/
def zeroSummary : Summary := ⟨0, 0, 0, 0, 0, 0⟩

/-- What one `handler.processImage` call returns, as seen by the Manager:
the ChatGPT (deferred) handler returns `{submitted, successStatusOfPrevious}`,
the Gemini (immediate) handler returns `{success}` (no `submitted` field),
and a call may also throw. -/
inductive HandlerResult
  | deferred (submitted : Bool) (successStatusOfPrevious : Bool)
  | immediate (success : Bool)
  | thrown
deriving DecidableEq, Repr

/-- The external world's script for one unit of the batch: whether the EXIF
read throws, the stored `successCount` it returns, whether an EXIF write for
this unit's file succeeds, and what the handler call for this unit does. -/
structure UnitScript where
  readOk : Bool
  successCount : Nat
  writeOk : Bool
  handlerResult : HandlerResult
deriving DecidableEq, Repr

/-- One `exifWriter.incrementCounter` call performed by the batch loop:
at which loop iteration it happened (`none` = the batch-end flush), which
unit's file was written (`key`), whether the success key (`value = true`)
or the failed key was incremented, and whether the write succeeded. -/
structure PersistEvent where
  atIteration : Option Nat
  key : Nat
  value : Bool
  wrote : Bool
deriving DecidableEq, Repr

/-- The loop state of `Manager.processImageBatch`: the summary, the
`previousImagePath` pointer, the `successStatusForPreviousImage` buffer
(`none` = JS `null`), plus the trace of persists and of handler calls. -/
structure BatchState where
  summary : Summary
  prev : Option Nat
  status : Option Bool
  events : List PersistEvent
  calls : List Nat
deriving DecidableEq, Repr

/-- The state at the top of `processImageBatch`. -/
def initialBatchState : BatchState := ⟨zeroSummary, none, none, [], []⟩

/-- Whether `exifWriter.incrementCounter` succeeds for the file of unit
`key` (out-of-range keys never occur in a run). -/
def writeOkAt (units : List UnitScript) (key : Nat) : Bool :=
  ((units.get? key).map UnitScript.writeOk).getD false

/-- One `incrementCounter` call plus the summary update that follows it in
`processImageBatch`: on a successful write the success or failed counter is
bumped according to the persisted value, otherwise `exifErrors` is bumped. -/
def doPersist (units : List UnitScript) (whenAt : Option Nat) (key : Nat) (value : Bool)
    (s : BatchState) : BatchState :=
  let wrote := writeOkAt units key
  let updated :=
    if wrote = true then
      if value = true then { s.summary with success := s.summary.success + 1 }
      else { s.summary with failed := s.summary.failed + 1 }
    else { s.summary with exifErrors := s.summary.exifErrors + 1 }
  ⟨updated, s.prev, s.status, s.events ++ [⟨whenAt, key, value, wrote⟩], s.calls⟩

/-- The start of each loop iteration in `processImageBatch`: if
`previousImagePath` is set and `successStatusForPreviousImage` is not null,
persist that pair, then null out `successStatusForPreviousImage`. -/
def attributePrevious (units : List UnitScript) (idx : Nat) (s : BatchState) : BatchState :=
  match s.prev, s.status with
  | some p, some v =>
      let s' := doPersist units (some idx) p v s
      ⟨s'.summary, s'.prev, none, s'.events, s'.calls⟩
  | _, _ => ⟨s.summary, s.prev, none, s.events, s.calls⟩

/-- How `processImageBatch` turns a handler call's result into the new
`successStatusForPreviousImage` buffer and the `submitErrors` increment:
a well-formed `{submitted, successStatusOfPrevious}` result keeps its
status and counts a submit error iff `submitted` is false; a result with
no `submitted` field (the Gemini handler's `{success}` shape) and a thrown
call are both treated as submit failures with status `false`. -/
def handlerOutcome : HandlerResult → Option Bool × Nat
  | .deferred sub p => (some p, if sub then 0 else 1)
  | .immediate _ => (some false, 1)
  | .thrown => (some false, 1)

/-- One full iteration of the `for` loop in `processImageBatch` for the
unit at index `idx`: attribute the previous unit, run the EXIF skip check,
and either skip (clearing `previousImagePath`) or call the handler. -/
def processUnit (units : List UnitScript) (skipEnabled : Bool) (idx : Nat) (u : UnitScript)
    (s0 : BatchState) : BatchState :=
  let s := attributePrevious units idx s0
  let existingSuccessCount := if u.readOk then u.successCount else 0
  if 0 < existingSuccessCount ∧ skipEnabled = true then
    ⟨{ s.summary with skipped := s.summary.skipped + 1 }, none, s.status, s.events, s.calls⟩
  else
    let outcome := handlerOutcome u.handlerResult
    ⟨{ s.summary with processed := s.summary.processed + 1,
                      submitErrors := s.summary.submitErrors + outcome.2 },
      some idx, outcome.1, s.events, s.calls ++ [idx]⟩

/-- The loop of `processImageBatch`, processing the remaining units `l`
whose first element sits at batch index `idx`. -/
def runBatchAux (units : List UnitScript) (skipEnabled : Bool) :
    Nat → List UnitScript → BatchState → BatchState
  | _, [], s => s
  | idx, u :: rest, s =>
      runBatchAux units skipEnabled (idx + 1) rest (processUnit units skipEnabled idx u s)

/-- The two batch-end branches of `processImageBatch`: persist the last
pending unit with its buffered status, or — if its status is still null and
something was processed — persist it as failed. -/
def flushBatch (units : List UnitScript) (s : BatchState) : BatchState :=
  match s.prev, s.status with
  | some p, some v => doPersist units none p v s
  | some p, none =>
      if 0 < s.summary.processed then doPersist units none p false s else s
  | none, _ => s

/-- The whole of `Manager.processImageBatch` over a scripted batch. -/
def processImageBatch (skipEnabled : Bool) (units : List UnitScript) : BatchState :=
  flushBatch units (runBatchAux units skipEnabled 0 units initialBatchState)

/-- The skip condition of `processImageBatch` for batch index `i`:
skipping enabled, the EXIF read succeeds, and the stored success count is
positive. -/
def skipsAt (skipEnabled : Bool) (units : List UnitScript) (i : Nat) : Bool :=
  skipEnabled &&
    (match units.get? i with
     | some u => u.readOk && decide (0 < u.successCount)
     | none => false)

/-- The scripted batch of claim C1: three units, every EXIF access fine,
handler calls scripted so that the deferred check during img2's call
resolves img1 as Success and the check during img3's call resolves img2 as
Failure (the check during img1's own call sees the fresh session: no
response blocks, hence Failure). -/
def c1Units : List UnitScript :=
  [⟨true, 0, true, HandlerResult.deferred true false⟩,
   ⟨true, 0, true, HandlerResult.deferred true true⟩,
   ⟨true, 0, true, HandlerResult.deferred true false⟩]

/-- The scripted batch of claim C2: one unit processed by the Gemini
(immediate) handler, which resolves the unit as Success. -/
def c2Units : List UnitScript :=
  [⟨true, 0, true, HandlerResult.immediate true⟩]

/-- Claim C1 (code_bug evaluation): on the scripted batch [img1, img2, img3]
the code persists img1 as Failure (the value its own call's check produced,
one slot too early), img2 as Success (img1's outcome, misattributed), and
img3 as Failure at the flush — not the img1=Success, img2=Failure,
img3=Failure the claim states. -/
theorem c1_deferred_scenario_eval :
    (processImageBatch true c1Units).events =
      [⟨some 1, 0, false, true⟩, ⟨some 2, 1, true, true⟩, ⟨none, 2, false, true⟩] ∧
    (processImageBatch true c1Units).summary.success = 1 ∧
    (processImageBatch true c1Units).summary.failed = 2 := by
  decide

/-- Claim C2 (code_bug evaluation): a one-unit Gemini batch whose handler
resolves Success is nevertheless persisted as Failure by the batch-end
flush, with a submit error counted, because the Manager rejects the
`{success}` result shape; the unit's resolved Success value is never
persisted. -/
theorem c2_immediate_scenario_eval :
    (processImageBatch true c2Units).events = [⟨none, 0, false, true⟩] ∧
    (processImageBatch true c2Units).summary =
      ⟨1, 0, 0, 1, 1, 0⟩ := by
  decide

/-! ### Claim C3: processed + skipped accounts for every unit -/

/-- `doPersist` never touches the processed or skipped counters. -/
lemma doPersist_processed_skipped (units : List UnitScript) (whenAt : Option Nat)
    (key : Nat) (value : Bool) (s : BatchState) :
    (doPersist units whenAt key value s).summary.processed = s.summary.processed ∧
    (doPersist units whenAt key value s).summary.skipped = s.summary.skipped := by
  unfold doPersist
  dsimp only
  split <;> [skip; exact ⟨rfl, rfl⟩]
  split <;> exact ⟨rfl, rfl⟩

/-- `attributePrevious` never touches the processed or skipped counters. -/
lemma attributePrevious_processed_skipped (units : List UnitScript) (idx : Nat)
    (s : BatchState) :
    (attributePrevious units idx s).summary.processed = s.summary.processed ∧
    (attributePrevious units idx s).summary.skipped = s.summary.skipped := by
  unfold attributePrevious
  rcases hp : s.prev with _ | p <;> rcases hv : s.status with _ | v <;>
    simp [doPersist_processed_skipped]

/-- Each loop iteration increments exactly one of processed and skipped. -/
lemma processUnit_processed_skipped (units : List UnitScript) (skipEnabled : Bool)
    (idx : Nat) (u : UnitScript) (s : BatchState) :
    (processUnit units skipEnabled idx u s).summary.processed +
      (processUnit units skipEnabled idx u s).summary.skipped =
    s.summary.processed + s.summary.skipped + 1 := by
  unfold processUnit
  have h := attributePrevious_processed_skipped units idx s
  dsimp only
  split <;> split <;> dsimp only <;> simp only [h.1, h.2] <;> omega

/-- Running the loop over `l` adds `l.length` to processed + skipped. -/
lemma runBatchAux_processed_skipped (units : List UnitScript) (skipEnabled : Bool) :
    ∀ (l : List UnitScript) (idx : Nat) (s : BatchState),
      (runBatchAux units skipEnabled idx l s).summary.processed +
        (runBatchAux units skipEnabled idx l s).summary.skipped =
      s.summary.processed + s.summary.skipped + l.length
  | [], idx, s => by simp [runBatchAux]
  | u :: rest, idx, s => by
      have ih := runBatchAux_processed_skipped units skipEnabled rest (idx + 1)
        (processUnit units skipEnabled idx u s)
      have hstep := processUnit_processed_skipped units skipEnabled idx u s
      simp only [runBatchAux, List.length_cons]
      omega

/-- The flush never touches the processed or skipped counters. -/
lemma flushBatch_processed_skipped (units : List UnitScript) (s : BatchState) :
    (flushBatch units s).summary.processed = s.summary.processed ∧
    (flushBatch units s).summary.skipped = s.summary.skipped := by
  unfold flushBatch
  rcases hp : s.prev with _ | p <;> rcases hv : s.status with _ | v <;>
    simp [doPersist_processed_skipped]
  split <;> simp [doPersist_processed_skipped]

/-- Claim C3: over every scripted batch — including units whose handler
call throws, returns a malformed result, or whose EXIF read fails — the
returned summary satisfies processed + skipped = number of units: each unit
increments exactly one of the two and no per-unit error ends the loop. -/
theorem processed_plus_skipped_eq_total (skipEnabled : Bool) (units : List UnitScript) :
    (processImageBatch skipEnabled units).summary.processed +
      (processImageBatch skipEnabled units).summary.skipped = units.length := by
  unfold processImageBatch
  have hflush := flushBatch_processed_skipped units
    (runBatchAux units skipEnabled 0 units initialBatchState)
  have hloop := runBatchAux_processed_skipped units skipEnabled units 0 initialBatchState
  simp only [hflush.1, hflush.2]
  simpa [initialBatchState, zeroSummary] using hloop

/-- Claim C3 witness: the accounting identity evaluated on a concrete
three-unit batch containing a skip, a throw and a normal unit. -/
theorem processed_plus_skipped_eq_total_witness :
    (processImageBatch true
        [⟨true, 2, true, HandlerResult.deferred true true⟩,
         ⟨true, 0, true, HandlerResult.thrown⟩,
         ⟨false, 5, false, HandlerResult.deferred false true⟩]).summary.processed +
      (processImageBatch true
        [⟨true, 2, true, HandlerResult.deferred true true⟩,
         ⟨true, 0, true, HandlerResult.thrown⟩,
         ⟨false, 5, false, HandlerResult.deferred false true⟩]).summary.skipped = 3 :=
  processed_plus_skipped_eq_total true
    [⟨true, 2, true, HandlerResult.deferred true true⟩,
     ⟨true, 0, true, HandlerResult.thrown⟩,
     ⟨false, 5, false, HandlerResult.deferred false true⟩]

/-! ### The loop invariant of `processImageBatch`

`BatchInv se units k s` describes the loop state just before the iteration
for batch index `k`.  It records where persists can have happened, how the
`previousImagePath` pointer and the status buffer relate, which units have
been handed to the handler, and — for runs with skipping disabled — that
every earlier unit has already been persisted. -/

structure BatchInv (se : Bool) (units : List UnitScript) (k : Nat) (s : BatchState) : Prop where
  events_char : ∀ e ∈ s.events, ∃ i, e.atIteration = some i ∧ e.key + 1 = i ∧ i < k ∧
      skipsAt se units e.key = false
  status_prev : ∀ v, s.status = some v → ∃ p, s.prev = some p ∧ p + 1 = k ∧
      skipsAt se units p = false
  none_prev : s.status = none → s.prev = none
  calls_char : ∀ j ∈ s.calls, skipsAt se units j = false
  keys_distinct : s.events.Pairwise (fun a b => a.key ≠ b.key)
  full_run : se = false →
      (∀ i, i + 1 < k → ∃ e ∈ s.events, e.key = i) ∧ (1 ≤ k → s.status.isSome = true)

lemma attributePrevious_status (units : List UnitScript) (idx : Nat) (s : BatchState) :
    (attributePrevious units idx s).status = none := by
  unfold attributePrevious
  rcases s.prev with _ | p <;> rcases s.status with _ | v <;> rfl

lemma attributePrevious_prev (units : List UnitScript) (idx : Nat) (s : BatchState) :
    (attributePrevious units idx s).prev = s.prev := by
  unfold attributePrevious
  rcases hp : s.prev with _ | p <;> rcases hv : s.status with _ | v <;>
    simp [doPersist, hp]

lemma attributePrevious_calls (units : List UnitScript) (idx : Nat) (s : BatchState) :
    (attributePrevious units idx s).calls = s.calls := by
  unfold attributePrevious
  rcases s.prev with _ | p <;> rcases s.status with _ | v <;> rfl

lemma attributePrevious_events_persist (units : List UnitScript) (idx : Nat)
    (s : BatchState) (p : Nat) (v : Bool) (hp : s.prev = some p) (hv : s.status = some v) :
    (attributePrevious units idx s).events =
      s.events ++ [⟨some idx, p, v, writeOkAt units p⟩] := by
  unfold attributePrevious
  rw [hp, hv]
  rfl

lemma attributePrevious_events_of_status_none (units : List UnitScript) (idx : Nat)
    (s : BatchState) (hv : s.status = none) :
    (attributePrevious units idx s).events = s.events := by
  unfold attributePrevious
  rw [hv]
  rcases s.prev with _ | p <;> rfl

lemma handlerOutcome_fst_isSome (h : HandlerResult) : (handlerOutcome h).1.isSome = true := by
  cases h <;> rfl

lemma skipsAt_false_of_no_skip {se : Bool} {units : List UnitScript} {k : Nat}
    {u : UnitScript} (hk : units.get? k = some u)
    (hc : ¬(0 < (if u.readOk then u.successCount else 0) ∧ se = true)) :
    skipsAt se units k = false := by
  unfold skipsAt
  rw [hk]
  cases hse : se <;> cases hro : u.readOk <;> simp_all

lemma skipsAt_true_elim {se : Bool} {units : List UnitScript} {i : Nat}
    (h : skipsAt se units i = true) :
    se = true ∧ ∃ u, units.get? i = some u ∧ u.readOk = true ∧ 0 < u.successCount := by
  unfold skipsAt at h
  rcases hget : units.get? i with _ | u <;> rw [hget] at h <;> simp_all

lemma skipsAt_true_intro {se : Bool} {units : List UnitScript} {i : Nat} {u : UnitScript}
    (hget : units.get? i = some u) (hse : se = true) (hro : u.readOk = true)
    (hcnt : 0 < u.successCount) : skipsAt se units i = true := by
  unfold skipsAt
  rw [hget]
  simp_all

/-- One loop iteration preserves the invariant. -/
lemma batchInv_step (se : Bool) (units : List UnitScript) (k : Nat) (u : UnitScript)
    (s : BatchState) (hk : units.get? k = some u) (h : BatchInv se units k s) :
    BatchInv se units (k + 1) (processUnit units se k u s) := by
  have hstat1 := attributePrevious_status units k s
  have hprev1 := attributePrevious_prev units k s
  have hcalls1 := attributePrevious_calls units k s
  -- characterize the events of the attribution step
  have hmid :
      (∀ e ∈ (attributePrevious units k s).events, ∃ i, e.atIteration = some i ∧
          e.key + 1 = i ∧ i < k + 1 ∧ skipsAt se units e.key = false) ∧
      (attributePrevious units k s).events.Pairwise (fun a b => a.key ≠ b.key) ∧
      (se = false → ∀ i, i + 1 < k + 1 → ∃ e ∈ (attributePrevious units k s).events,
          e.key = i) := by
    rcases hv : s.status with _ | v
    · have he := attributePrevious_events_of_status_none units k s hv
      refine ⟨?_, ?_, ?_⟩
      · intro e hmem
        rw [he] at hmem
        obtain ⟨i, h1, h2, h3, h4⟩ := h.events_char e hmem
        exact ⟨i, h1, h2, Nat.lt_succ_of_lt h3, h4⟩
      · rw [he]; exact h.keys_distinct
      · intro hse i hi
        rw [he]
        rcases Nat.lt_or_ge (i + 1) k with hlt | hge
        · exact (h.full_run hse).1 i hlt
        · have hik : i + 1 = k := by omega
          have hsome := (h.full_run hse).2 (by omega)
          rw [hv] at hsome
          simp at hsome
    · obtain ⟨p, hp, hpk, hskp⟩ := h.status_prev v hv
      have he := attributePrevious_events_persist units k s p v hp hv
      refine ⟨?_, ?_, ?_⟩
      · intro e hmem
        rw [he, List.mem_append] at hmem
        rcases hmem with hold | hnew
        · obtain ⟨i, h1, h2, h3, h4⟩ := h.events_char e hold
          exact ⟨i, h1, h2, Nat.lt_succ_of_lt h3, h4⟩
        · simp only [List.mem_singleton] at hnew
          subst hnew
          exact ⟨k, rfl, hpk, Nat.lt_succ_self k, hskp⟩
      · rw [he, List.pairwise_append]
        refine ⟨h.keys_distinct, List.pairwise_singleton _ _, ?_⟩
        intro a ha b hb
        simp only [List.mem_singleton] at hb
        subst hb
        obtain ⟨i, _, h2, h3, _⟩ := h.events_char a ha
        dsimp only
        omega
      · intro hse i hi
        rw [he]
        rcases Nat.lt_or_ge (i + 1) k with hlt | hge
        · obtain ⟨e, hmem, hkey⟩ := (h.full_run hse).1 i hlt
          exact ⟨e, List.mem_append_left _ hmem, hkey⟩
        · have hik : i = p := by omega
          subst hik
          exact ⟨⟨some k, i, v, writeOkAt units i⟩,
            List.mem_append_right _ (List.mem_singleton_self _), rfl⟩
  unfold processUnit
  dsimp only
  by_cases hc : 0 < (if u.readOk then u.successCount else 0) ∧ se = true
  · rw [if_pos hc]
    refine ⟨?_, ?_, ?_, ?_, ?_, ?_⟩
    · exact hmid.1
    · intro v hv
      rw [hstat1] at hv
      exact absurd hv (by simp)
    · intro _; rfl
    · intro j hj
      rw [hcalls1] at hj
      exact h.calls_char j hj
    · exact hmid.2.1
    · intro hse
      rw [hse] at hc
      exact absurd hc.2 (by simp)
  · rw [if_neg hc]
    have hskf := skipsAt_false_of_no_skip hk hc
    refine ⟨?_, ?_, ?_, ?_, ?_, ?_⟩
    · exact hmid.1
    · intro v _
      exact ⟨k, rfl, rfl, hskf⟩
    · intro hnone
      have h2 : (handlerOutcome u.handlerResult).1 = none := hnone
      have h3 := handlerOutcome_fst_isSome u.handlerResult
      rw [h2] at h3
      simp at h3
    · intro j hj
      rw [hcalls1, List.mem_append] at hj
      rcases hj with hold | hnew
      · exact h.calls_char j hold
      · simp only [List.mem_singleton] at hnew
        subst hnew
        exact hskf
    · exact hmid.2.1
    · intro hse
      exact ⟨hmid.2.2 hse, fun _ => handlerOutcome_fst_isSome u.handlerResult⟩

/-- The invariant holds at the top of the loop. -/
lemma batchInv_init (se : Bool) (units : List UnitScript) :
    BatchInv se units 0 initialBatchState := by
  refine ⟨?_, ?_, ?_, ?_, ?_, ?_⟩
  · intro e hmem; exact absurd hmem (by simp [initialBatchState])
  · intro v hv; exact absurd hv (by simp [initialBatchState])
  · intro _; rfl
  · intro j hj; exact absurd hj (by simp [initialBatchState])
  · simp [initialBatchState]
  · intro _
    exact ⟨fun i hi => absurd hi (by omega), fun hk => absurd hk (by omega)⟩

/-- Running the rest of the loop preserves the invariant. -/
lemma runBatchAux_inv (se : Bool) (units : List UnitScript) :
    ∀ (l : List UnitScript) (k : Nat) (s : BatchState),
      (∀ j, l.get? j = units.get? (k + j)) → BatchInv se units k s →
      BatchInv se units (k + l.length) (runBatchAux units se k l s)
  | [], k, s, _, h => by simpa [runBatchAux] using h
  | u :: rest, k, s, hget, h => by
      have hk : units.get? k = some u := by
        have h0 := hget 0
        simpa using h0.symm
      have hrest : ∀ j, rest.get? j = units.get? ((k + 1) + j) := by
        intro j
        have hj := hget (j + 1)
        simpa [Nat.add_comm, Nat.add_left_comm, Nat.add_assoc] using hj
      have hstep := batchInv_step se units k u s hk h
      have ih := runBatchAux_inv se units rest (k + 1) (processUnit units se k u s)
        hrest hstep
      have harith : k + 1 + rest.length = k + (rest.length + 1) := by omega
      rw [harith] at ih
      simpa [runBatchAux] using ih

/-- The invariant at the end of the loop, at stage `units.length`. -/
lemma batchInv_final (se : Bool) (units : List UnitScript) :
    BatchInv se units units.length (runBatchAux units se 0 units initialBatchState) := by
  have h := runBatchAux_inv se units units 0 initialBatchState
    (fun j => by simp) (batchInv_init se units)
  simpa using h

lemma flushBatch_of_status_some (units : List UnitScript) (s : BatchState) (p : Nat)
    (v : Bool) (hp : s.prev = some p) (hv : s.status = some v) :
    flushBatch units s = doPersist units none p v s := by
  unfold flushBatch
  rw [hp, hv]

lemma flushBatch_of_prev_none (units : List UnitScript) (s : BatchState)
    (hp : s.prev = none) : flushBatch units s = s := by
  unfold flushBatch
  rw [hp]

lemma doPersist_calls (units : List UnitScript) (whenAt : Option Nat) (key : Nat)
    (value : Bool) (s : BatchState) :
    (doPersist units whenAt key value s).calls = s.calls := by
  rfl

lemma doPersist_events (units : List UnitScript) (whenAt : Option Nat) (key : Nat)
    (value : Bool) (s : BatchState) :
    (doPersist units whenAt key value s).events =
      s.events ++ [⟨whenAt, key, value, writeOkAt units key⟩] := by
  rfl

/-- The full characterization of the persist trace and call trace of a
batch run, obtained from the loop invariant plus a case split over the two
flush branches.  Every persist happens either during loop iteration
`key + 1` or — for the final unit only — at the batch-end flush; no persist
and no handler call ever targets a skipped unit; persists have pairwise
distinct targets; and with skipping disabled every unit is persisted. -/
lemma processImageBatch_char (se : Bool) (units : List UnitScript) :
    (∀ e ∈ (processImageBatch se units).events,
        (∀ i, e.atIteration = some i → e.key + 1 = i ∧ i < units.length) ∧
        (e.atIteration = none → e.key + 1 = units.length) ∧
        skipsAt se units e.key = false) ∧
    (∀ j ∈ (processImageBatch se units).calls, skipsAt se units j = false) ∧
    ((processImageBatch se units).events.Pairwise (fun a b => a.key ≠ b.key)) ∧
    (se = false → ∀ i, i < units.length →
        ∃ e ∈ (processImageBatch se units).events, e.key = i) := by
  have h := batchInv_final se units
  unfold processImageBatch
  rcases hv : (runBatchAux units se 0 units initialBatchState).status with _ | v
  · have hp := h.none_prev hv
    rw [flushBatch_of_prev_none units _ hp]
    refine ⟨?_, h.calls_char, h.keys_distinct, ?_⟩
    · intro e hmem
      obtain ⟨i, h1, h2, h3, h4⟩ := h.events_char e hmem
      refine ⟨?_, ?_, h4⟩
      · intro i' hi'
        rw [h1] at hi'
        obtain rfl : i = i' := by injection hi'
        exact ⟨h2, h3⟩
      · intro hnone
        rw [h1] at hnone
        exact absurd hnone (by simp)
    · intro hse i hi
      rcases Nat.lt_or_ge (i + 1) units.length with hlt | hge
      · exact (h.full_run hse).1 i hlt
      · have hlen : 1 ≤ units.length := by omega
        have hsome := (h.full_run hse).2 hlen
        rw [hv] at hsome
        simp at hsome
  · obtain ⟨p, hp, hpk, hskp⟩ := h.status_prev v hv
    rw [flushBatch_of_status_some units _ p v hp hv]
    rw [doPersist_calls, doPersist_events]
    refine ⟨?_, h.calls_char, ?_, ?_⟩
    · intro e hmem
      rw [List.mem_append] at hmem
      rcases hmem with hold | hnew
      · obtain ⟨i, h1, h2, h3, h4⟩ := h.events_char e hold
        refine ⟨?_, ?_, h4⟩
        · intro i' hi'
          rw [h1] at hi'
          obtain rfl : i = i' := by injection hi'
          exact ⟨h2, h3⟩
        · intro hnone
          rw [h1] at hnone
          exact absurd hnone (by simp)
      · simp only [List.mem_singleton] at hnew
        subst hnew
        exact ⟨fun i' hi' => absurd hi' (by simp), fun _ => hpk, hskp⟩
    · rw [List.pairwise_append]
      refine ⟨h.keys_distinct, List.pairwise_singleton _ _, ?_⟩
      intro a ha b hb
      simp only [List.mem_singleton] at hb
      subst hb
      obtain ⟨i, _, h2, h3, _⟩ := h.events_char a ha
      dsimp only
      omega
    · intro hse i hi
      rcases Nat.lt_or_ge (i + 1) units.length with hlt | hge
      · obtain ⟨e, hmem, hkey⟩ := (h.full_run hse).1 i hlt
        exact ⟨e, List.mem_append_left _ hmem, hkey⟩
      · have hik : i = p := by omega
        subst hik
        exact ⟨⟨none, i, v, writeOkAt units i⟩,
          List.mem_append_right _ (List.mem_singleton_self _), rfl⟩

/-- Claim C4: in any batch run, a persist that happens during loop
iteration `i` always targets unit `i - 1` (so no unit is ever persisted
during its own iteration, and unit A's counter is written only during the
immediately following unit's iteration); a persist at the batch-end flush
targets exactly the final unit; and with skipping disabled every unit gets
persisted. -/
theorem deferred_attribution_timing (se : Bool) (units : List UnitScript) :
    (∀ e ∈ (processImageBatch se units).events, ∀ i, e.atIteration = some i →
        e.key + 1 = i ∧ i < units.length) ∧
    (∀ e ∈ (processImageBatch se units).events, e.atIteration = none →
        e.key + 1 = units.length) ∧
    (se = false → ∀ i, i < units.length →
        ∃ e ∈ (processImageBatch se units).events, e.key = i) := by
  obtain ⟨hch, _, _, hfull⟩ := processImageBatch_char se units
  exact ⟨fun e he => (hch e he).1, fun e he => (hch e he).2.1, hfull⟩

/-- Claim C4 witness: the timing characterization instantiated on a
concrete two-unit deferred batch with skipping disabled. -/
theorem deferred_attribution_timing_witness :
    (∀ e ∈ (processImageBatch false
        [⟨true, 0, true, HandlerResult.deferred true false⟩,
         ⟨true, 0, true, HandlerResult.deferred true true⟩]).events,
      ∀ i, e.atIteration = some i → e.key + 1 = i ∧ i < 2) ∧
    (∀ e ∈ (processImageBatch false
        [⟨true, 0, true, HandlerResult.deferred true false⟩,
         ⟨true, 0, true, HandlerResult.deferred true true⟩]).events,
      e.atIteration = none → e.key + 1 = 2) ∧
    (false = false → ∀ i, i < 2 → ∃ e ∈ (processImageBatch false
        [⟨true, 0, true, HandlerResult.deferred true false⟩,
         ⟨true, 0, true, HandlerResult.deferred true true⟩]).events, e.key = i) :=
  deferred_attribution_timing false
    [⟨true, 0, true, HandlerResult.deferred true false⟩,
     ⟨true, 0, true, HandlerResult.deferred true true⟩]

/-! ### Claims C5 and C10: the skip branch -/

/-- In a list of events with pairwise distinct keys, at most one event
targets any given unit. -/
lemma filter_key_le_one :
    ∀ (l : List PersistEvent), l.Pairwise (fun a b => a.key ≠ b.key) →
      ∀ j, (l.filter (fun e => e.key == j)).length ≤ 1
  | [], _, j => by simp
  | a :: l, hp, j => by
      rw [List.pairwise_cons] at hp
      by_cases ha : a.key = j
      · rw [List.filter_cons_of_pos (by simpa using ha)]
        have hnil : l.filter (fun e => e.key == j) = [] := by
          rw [List.filter_eq_nil_iff]
          intro e he hkey
          have hne := hp.1 e he
          rw [ha] at hne
          have hek : e.key = j := by simpa using hkey
          exact hne hek.symm
        rw [hnil]
        simp
      · rw [List.filter_cons_of_neg (by simpa using ha)]
        exact filter_key_le_one l hp.2 j

/-- The skip branch of `processUnit`, taken whenever the stored success
count is positive, the EXIF read worked and skipping is enabled. -/
lemma processUnit_skip_branch (se : Bool) (units : List UnitScript) (i : Nat)
    (u : UnitScript) (hro : u.readOk = true) (hcnt : 0 < u.successCount)
    (hse : se = true) (s : BatchState) :
    processUnit units se i u s =
      ⟨{ (attributePrevious units i s).summary with
           skipped := (attributePrevious units i s).summary.skipped + 1 },
        none, (attributePrevious units i s).status,
        (attributePrevious units i s).events, (attributePrevious units i s).calls⟩ := by
  have hcond : 0 < (if u.readOk then u.successCount else 0) ∧ se = true := by
    refine ⟨?_, hse⟩
    rw [hro]
    simpa using hcnt
  unfold processUnit
  dsimp only
  rw [if_pos hcond]

/-- Claim C5: for a unit whose stored data has a positive success count,
with skipping enabled, the handler is never invoked for that unit, the
iteration for that unit is exactly the previous-unit attribution step plus
a single increment of `skipped` (clearing `previousImagePath`), and no
other summary counter nor the call or persist traces change for it. -/
theorem skip_idempotence (se : Bool) (units : List UnitScript) (i : Nat) (u : UnitScript)
    (hget : units.get? i = some u) (hro : u.readOk = true) (hcnt : 0 < u.successCount)
    (hse : se = true) :
    i ∉ (processImageBatch se units).calls ∧
    (∀ s, processUnit units se i u s =
        ⟨{ (attributePrevious units i s).summary with
             skipped := (attributePrevious units i s).summary.skipped + 1 },
          none, (attributePrevious units i s).status,
          (attributePrevious units i s).events, (attributePrevious units i s).calls⟩) ∧
    (∀ s, (processUnit units se i u s).summary.skipped = s.summary.skipped + 1 ∧
          (processUnit units se i u s).summary.processed = s.summary.processed ∧
          (processUnit units se i u s).calls = s.calls ∧
          (processUnit units se i u s).events = (attributePrevious units i s).events) := by
  have hsk := skipsAt_true_intro hget hse hro hcnt
  obtain ⟨_, hcalls, _, _⟩ := processImageBatch_char se units
  refine ⟨?_, processUnit_skip_branch se units i u hro hcnt hse, ?_⟩
  · intro hmem
    have hfalse := hcalls i hmem
    rw [hsk] at hfalse
    exact absurd hfalse (by simp)
  · intro s
    rw [processUnit_skip_branch se units i u hro hcnt hse s]
    have hps := attributePrevious_processed_skipped units i s
    have hcl := attributePrevious_calls units i s
    refine ⟨?_, ?_, ?_, rfl⟩
    · dsimp only
      rw [hps.2]
    · dsimp only
      rw [hps.1]
    · dsimp only
      rw [hcl]

/-- Claim C5 witness: the skip behaviour on a concrete one-unit batch whose
stored success count is 2. -/
theorem skip_idempotence_witness :
    ([⟨true, 2, true, HandlerResult.deferred true true⟩] : List UnitScript).get? 0 =
        some ⟨true, 2, true, HandlerResult.deferred true true⟩ ∧
    (0 ∉ (processImageBatch true
        [⟨true, 2, true, HandlerResult.deferred true true⟩]).calls ∧
      (∀ s, processUnit [⟨true, 2, true, HandlerResult.deferred true true⟩] true 0
            ⟨true, 2, true, HandlerResult.deferred true true⟩ s =
          ⟨{ (attributePrevious [⟨true, 2, true, HandlerResult.deferred true true⟩] 0
                s).summary with
               skipped := (attributePrevious
                 [⟨true, 2, true, HandlerResult.deferred true true⟩] 0 s).summary.skipped + 1 },
            none,
            (attributePrevious [⟨true, 2, true, HandlerResult.deferred true true⟩] 0 s).status,
            (attributePrevious [⟨true, 2, true, HandlerResult.deferred true true⟩] 0 s).events,
            (attributePrevious [⟨true, 2, true, HandlerResult.deferred true true⟩] 0 s).calls⟩) ∧
      (∀ s, (processUnit [⟨true, 2, true, HandlerResult.deferred true true⟩] true 0
              ⟨true, 2, true, HandlerResult.deferred true true⟩ s).summary.skipped =
            s.summary.skipped + 1 ∧
          (processUnit [⟨true, 2, true, HandlerResult.deferred true true⟩] true 0
              ⟨true, 2, true, HandlerResult.deferred true true⟩ s).summary.processed =
            s.summary.processed ∧
          (processUnit [⟨true, 2, true, HandlerResult.deferred true true⟩] true 0
              ⟨true, 2, true, HandlerResult.deferred true true⟩ s).calls = s.calls ∧
          (processUnit [⟨true, 2, true, HandlerResult.deferred true true⟩] true 0
              ⟨true, 2, true, HandlerResult.deferred true true⟩ s).events =
            (attributePrevious [⟨true, 2, true, HandlerResult.deferred true true⟩] 0
              s).events)) :=
  ⟨by decide,
   skip_idempotence true [⟨true, 2, true, HandlerResult.deferred true true⟩] 0
     ⟨true, 2, true, HandlerResult.deferred true true⟩ (by decide) (by decide) (by decide)
     (by decide)⟩

/-- Claim C10: if unit `i` is skipped, no persist ever happens during
iteration `i + 1`, no persist is ever keyed to the skipped unit itself, no
unit is ever persisted twice in a run, and the skip clears the
previous-unit pointer. -/
theorem skip_cuts_attribution_chain (se : Bool) (units : List UnitScript) (i : Nat)
    (h : skipsAt se units i = true) :
    (∀ e ∈ (processImageBatch se units).events, e.atIteration ≠ some (i + 1)) ∧
    (∀ e ∈ (processImageBatch se units).events, e.key ≠ i) ∧
    (∀ j, ((processImageBatch se units).events.filter (fun e => e.key == j)).length ≤ 1) ∧
    (∀ u s, units.get? i = some u → (processUnit units se i u s).prev = none) := by
  obtain ⟨hch, _, hpw, _⟩ := processImageBatch_char se units
  have hkey : ∀ e ∈ (processImageBatch se units).events, e.key ≠ i := by
    intro e he hk
    have hfalse := (hch e he).2.2
    rw [hk, h] at hfalse
    exact absurd hfalse (by simp)
  refine ⟨?_, hkey, fun j => filter_key_le_one _ hpw j, ?_⟩
  · intro e he hat
    have h1 := (hch e he).1 (i + 1) hat
    exact hkey e he (by omega)
  · intro u s hget
    obtain ⟨hse, u', hget', hro, hcnt⟩ := skipsAt_true_elim h
    rw [hget] at hget'
    obtain rfl : u = u' := by injection hget'
    rw [processUnit_skip_branch se units i u hro hcnt hse s]

/-- Claim C10 witness: instantiated on a three-unit batch whose middle
unit (stored success count 3) is skipped. -/
theorem skip_cuts_attribution_chain_witness :
    skipsAt true
        [⟨true, 0, true, HandlerResult.deferred true true⟩,
         ⟨true, 3, true, HandlerResult.deferred true true⟩,
         ⟨true, 0, true, HandlerResult.deferred true false⟩] 1 = true ∧
    ((∀ e ∈ (processImageBatch true
          [⟨true, 0, true, HandlerResult.deferred true true⟩,
           ⟨true, 3, true, HandlerResult.deferred true true⟩,
           ⟨true, 0, true, HandlerResult.deferred true false⟩]).events,
        e.atIteration ≠ some 2) ∧
      (∀ e ∈ (processImageBatch true
          [⟨true, 0, true, HandlerResult.deferred true true⟩,
           ⟨true, 3, true, HandlerResult.deferred true true⟩,
           ⟨true, 0, true, HandlerResult.deferred true false⟩]).events,
        e.key ≠ 1) ∧
      (∀ j, ((processImageBatch true
          [⟨true, 0, true, HandlerResult.deferred true true⟩,
           ⟨true, 3, true, HandlerResult.deferred true true⟩,
           ⟨true, 0, true, HandlerResult.deferred true false⟩]).events.filter
            (fun e => e.key == j)).length ≤ 1) ∧
      (∀ u s, ([⟨true, 0, true, HandlerResult.deferred true true⟩,
           ⟨true, 3, true, HandlerResult.deferred true true⟩,
           ⟨true, 0, true, HandlerResult.deferred true false⟩] : List UnitScript).get? 1 =
            some u →
          (processUnit
            [⟨true, 0, true, HandlerResult.deferred true true⟩,
             ⟨true, 3, true, HandlerResult.deferred true true⟩,
             ⟨true, 0, true, HandlerResult.deferred true false⟩] true 1 u s).prev = none)) :=
  ⟨by decide,
   skip_cuts_attribution_chain true
     [⟨true, 0, true, HandlerResult.deferred true true⟩,
      ⟨true, 3, true, HandlerResult.deferred true true⟩,
      ⟨true, 0, true, HandlerResult.deferred true false⟩] 1 (by decide)⟩

/-! ### Claim C6: the retry policy of `ChatGptHandler.processImage` -/

/-- What one iteration of the retry loop observes: the readiness check
fails (`notReady`), the core upload/prompt/submit sequence throws — a gate
timeout ("Submit button did not become enabled") iff `isGateTimeout` — or
`checkPreviousSuccessAndSubmit` returns the previous unit's status. -/
inductive AttemptOutcome
  | notReady
  | coreError (isGateTimeout : Bool)
  | submittedOk (successOfPrevious : Bool)
deriving DecidableEq, Repr

/-- The environment's script for the retry loop of one unit: the outcome of
the first loop iteration, whether `page.reload` succeeds if it is attempted,
and the outcome of the second iteration if it runs. -/
structure RetryScript where
  firstAttempt : AttemptOutcome
  reloadOk : Bool
  secondAttempt : AttemptOutcome
deriving DecidableEq, Repr

/-- What `ChatGptHandler.processImage` returns, plus how many times the
core upload/prompt/submit sequence was started. -/
structure AttemptsResult where
  submitted : Bool
  successStatusOfPrevious : Bool
  coreAttempts : Nat
deriving DecidableEq, Repr

/-- The retry loop of `ChatGptHandler.processImage` (`maxRetries = 1`):
a readiness failure skips the unit with no retry; a gate timeout on the
first iteration triggers a reload and one retry (reload failure is
terminal); any other error, or any error on the retry, is terminal. -/
def chatGptProcessImage (s : RetryScript) : AttemptsResult :=
  match s.firstAttempt with
  | .notReady => ⟨false, false, 0⟩
  | .submittedOk p => ⟨true, p, 1⟩
  | .coreError gt =>
    if gt then
      if s.reloadOk then
        match s.secondAttempt with
        | .notReady => ⟨false, false, 1⟩
        | .submittedOk p => ⟨true, p, 2⟩
        | .coreError _ => ⟨false, false, 2⟩
      else ⟨false, false, 1⟩
    else ⟨false, false, 1⟩

/-- Claim C6: the retry policy performs at most one retry, gated strictly
on the gate-timeout failure: two gate timeouts give exactly 2 core attempts
and a failed unit; a non-gate-timeout error or a reload failure is terminal
after 1 attempt; a second attempt happens only after a first gate timeout
followed by a successful reload. -/
theorem retry_policy_bounds (s : RetryScript) :
    (chatGptProcessImage s).coreAttempts ≤ 2 ∧
    (s.firstAttempt = AttemptOutcome.coreError true → s.reloadOk = true →
      s.secondAttempt = AttemptOutcome.coreError true →
      chatGptProcessImage s = ⟨false, false, 2⟩) ∧
    (s.firstAttempt = AttemptOutcome.coreError false →
      chatGptProcessImage s = ⟨false, false, 1⟩) ∧
    (s.firstAttempt = AttemptOutcome.coreError true → s.reloadOk = false →
      chatGptProcessImage s = ⟨false, false, 1⟩) ∧
    (∀ p, s.firstAttempt = AttemptOutcome.submittedOk p →
      chatGptProcessImage s = ⟨true, p, 1⟩) ∧
    ((chatGptProcessImage s).coreAttempts = 2 →
      s.firstAttempt = AttemptOutcome.coreError true ∧ s.reloadOk = true) := by
  obtain ⟨a1, r, a2⟩ := s
  rcases a1 with _ | gt | p <;> rcases r with _ | _ <;>
    rcases a2 with _ | gt2 | p2 <;>
    first
      | (rcases gt with _ | _ <;> simp [chatGptProcessImage])
      | simp [chatGptProcessImage]

/-- Claim C6 witness: the double-gate-timeout script yields exactly two
core attempts and a failed, unsubmitted unit. -/
theorem retry_policy_bounds_witness :
    chatGptProcessImage
        ⟨AttemptOutcome.coreError true, true, AttemptOutcome.coreError true⟩ =
      ⟨false, false, 2⟩ ∧
    chatGptProcessImage
        ⟨AttemptOutcome.coreError false, true, AttemptOutcome.submittedOk true⟩ =
      ⟨false, false, 1⟩ :=
  ⟨(retry_policy_bounds
      ⟨AttemptOutcome.coreError true, true, AttemptOutcome.coreError true⟩).2.1
        rfl rfl rfl,
   (retry_policy_bounds
      ⟨AttemptOutcome.coreError false, true, AttemptOutcome.submittedOk true⟩).2.2.1 rfl⟩

/-! ### Claim C7: pairing in `Manager.runRecursiveMode` -/

/-- The sort performed by `FileManager.findSubdirectories` before
returning the subdirectory list ("Sort alphabetically for consistent
pairing"). -/
def sortDirs (l : List String) : List String := l.insertionSort (· ≤ ·)

/-- The pairing loop of `Manager.runRecursiveMode`: `numPairs` is the
minimum of the two list lengths and the loop creates one task per index
`i < numPairs` from the `i`-th entries of the two lists. -/
def buildPairTasks (inputSubDirs userDataSubDirs : List String) : List (String × String) :=
  let numPairs := min inputSubDirs.length userDataSubDirs.length
  (List.range numPairs).filterMap (fun i =>
    match inputSubDirs.get? i, userDataSubDirs.get? i with
    | some a, some b => some (a, b)
    | _, _ => none)

/-- The spec's wording of the pairing: the "positional zip of two sorted
directory lists". -/
def specPairAssignments (inputs userDirs : List String) : List (String × String) :=
  (sortDirs inputs).zip (sortDirs userDirs)

lemma buildPairTasks_nil_left (b : List String) : buildPairTasks [] b = [] := by
  simp [buildPairTasks]

lemma buildPairTasks_nil_right (a : List String) : buildPairTasks a [] = [] := by
  simp [buildPairTasks]

lemma buildPairTasks_cons (x y : String) (a b : List String) :
    buildPairTasks (x :: a) (y :: b) = (x, y) :: buildPairTasks a b := by
  unfold buildPairTasks
  dsimp only
  have hmin : min (x :: a).length (y :: b).length = min a.length b.length + 1 := by
    simp [List.length_cons, Nat.succ_min_succ]
  rw [hmin, List.range_succ_eq_map, List.filterMap_cons, List.filterMap_map]
  simp [Function.comp_def]

/-- The index loop of `runRecursiveMode` computes exactly the positional
zip of its two input lists. -/
lemma buildPairTasks_eq_zip : ∀ (a b : List String), buildPairTasks a b = a.zip b
  | [], b => by rw [buildPairTasks_nil_left]; rfl
  | x :: a, [] => by rw [buildPairTasks_nil_right]; rfl
  | x :: a, y :: b => by
      rw [buildPairTasks_cons, buildPairTasks_eq_zip a b]; rfl

/-- Claim C7: with M input-group directories and K profile directories,
exactly `min M K` pair tasks are created; they are the positional zip of
the two sorted lists; both lists are sorted; and no task exists at any
index at or beyond `min M K` (surplus entries are never processed). -/
theorem pairing_min_zip (inputs userDirs : List String) :
    (buildPairTasks (sortDirs inputs) (sortDirs userDirs)).length =
        min inputs.length userDirs.length ∧
    buildPairTasks (sortDirs inputs) (sortDirs userDirs) =
        specPairAssignments inputs userDirs ∧
    List.Sorted (· ≤ ·) (sortDirs inputs) ∧
    List.Sorted (· ≤ ·) (sortDirs userDirs) ∧
    (∀ i, min inputs.length userDirs.length ≤ i →
        (buildPairTasks (sortDirs inputs) (sortDirs userDirs)).get? i = none) := by
  have hz := buildPairTasks_eq_zip (sortDirs inputs) (sortDirs userDirs)
  have hlen : (buildPairTasks (sortDirs inputs) (sortDirs userDirs)).length =
      min inputs.length userDirs.length := by
    rw [hz, List.length_zip]
    unfold sortDirs
    rw [List.length_insertionSort, List.length_insertionSort]
  refine ⟨hlen, hz, List.sorted_insertionSort _ _, List.sorted_insertionSort _ _, ?_⟩
  intro i hi
  rw [List.get?_eq_none]
  omega

/-- Claim C7 witness: the pairing facts instantiated on two concrete
directory lists of lengths 3 and 2. -/
theorem pairing_min_zip_witness :
    (buildPairTasks (sortDirs ["c", "a", "b"]) (sortDirs ["q", "p"])).length = 2 ∧
    buildPairTasks (sortDirs ["c", "a", "b"]) (sortDirs ["q", "p"]) =
        specPairAssignments ["c", "a", "b"] ["q", "p"] ∧
    List.Sorted (· ≤ ·) (sortDirs ["c", "a", "b"]) ∧
    List.Sorted (· ≤ ·) (sortDirs ["q", "p"]) ∧
    (∀ i, 2 ≤ i →
        (buildPairTasks (sortDirs ["c", "a", "b"]) (sortDirs ["q", "p"])).get? i = none) :=
  pairing_min_zip ["c", "a", "b"] ["q", "p"]

/-! ### Claim C8: field-wise aggregation of pair summaries -/

/-- The field-wise accumulation step of `runRecursiveMode`'s aggregation
loop (`aggregateSummary.processed += summary.processed; ...`). -/
def addSummary (a b : Summary) : Summary :=
  ⟨a.processed + b.processed, a.skipped + b.skipped, a.success + b.success,
   a.failed + b.failed, a.submitErrors + b.submitErrors, a.exifErrors + b.exifErrors⟩

/-- One pair task as scheduled by `runRecursiveMode`: either it fails
before `processImageBatch` produces a summary (browser launch, navigation
or readiness error — the catch block keeps the zero-initialized
`pairResult`), or it runs a scripted batch. -/
inductive PairOutcome
  | failedPair
  | ranPair (skipEnabled : Bool) (units : List UnitScript)
deriving Repr

/-- The summary one pair task returns. -/
def runPairTask : PairOutcome → Summary
  | .failedPair => zeroSummary
  | .ranPair se units => (processImageBatch se units).summary

/-- The aggregation loop over the list of all completed pair summaries. -/
def aggregateSummaries (results : List Summary) : Summary :=
  results.foldl addSummary zeroSummary

/-- The run-wide summary of `runRecursiveMode`: run every pair task, then
aggregate all returned summaries. -/
def runRecursiveSummary (tasks : List PairOutcome) : Summary :=
  aggregateSummaries (tasks.map runPairTask)

lemma foldl_addSummary_field (f : Summary → Nat)
    (hf : ∀ a b, f (addSummary a b) = f a + f b) :
    ∀ (l : List Summary) (init : Summary),
      f (l.foldl addSummary init) = f init + (l.map f).sum
  | [], init => by simp
  | s :: l, init => by
      rw [List.foldl_cons, foldl_addSummary_field f hf l (addSummary init s), hf]
      rw [List.map_cons, List.sum_cons]
      omega

/-- Claim C8: the run-wide summary is the field-wise sum of the per-pair
summaries over all six counters, and a pair that failed before producing a
summary contributes the zero summary. -/
theorem pair_summary_aggregation (tasks : List PairOutcome) :
    (runRecursiveSummary tasks).processed =
        ((tasks.map runPairTask).map Summary.processed).sum ∧
    (runRecursiveSummary tasks).skipped =
        ((tasks.map runPairTask).map Summary.skipped).sum ∧
    (runRecursiveSummary tasks).success =
        ((tasks.map runPairTask).map Summary.success).sum ∧
    (runRecursiveSummary tasks).failed =
        ((tasks.map runPairTask).map Summary.failed).sum ∧
    (runRecursiveSummary tasks).submitErrors =
        ((tasks.map runPairTask).map Summary.submitErrors).sum ∧
    (runRecursiveSummary tasks).exifErrors =
        ((tasks.map runPairTask).map Summary.exifErrors).sum ∧
    runPairTask PairOutcome.failedPair = zeroSummary := by
  unfold runRecursiveSummary aggregateSummaries
  refine ⟨?_, ?_, ?_, ?_, ?_, ?_, rfl⟩
  · rw [foldl_addSummary_field Summary.processed (fun a b => rfl)]
    simp [zeroSummary]
  · rw [foldl_addSummary_field Summary.skipped (fun a b => rfl)]
    simp [zeroSummary]
  · rw [foldl_addSummary_field Summary.success (fun a b => rfl)]
    simp [zeroSummary]
  · rw [foldl_addSummary_field Summary.failed (fun a b => rfl)]
    simp [zeroSummary]
  · rw [foldl_addSummary_field Summary.submitErrors (fun a b => rfl)]
    simp [zeroSummary]
  · rw [foldl_addSummary_field Summary.exifErrors (fun a b => rfl)]
    simp [zeroSummary]

/-- Claim C8 witness: the aggregation identity on a concrete task list
containing a failed pair and two scripted pairs. -/
theorem pair_summary_aggregation_witness :
    (runRecursiveSummary
          [PairOutcome.failedPair,
           PairOutcome.ranPair true [⟨true, 0, true, HandlerResult.deferred true true⟩],
           PairOutcome.ranPair true [⟨true, 4, true, HandlerResult.thrown⟩]]).processed =
        (([PairOutcome.failedPair,
           PairOutcome.ranPair true [⟨true, 0, true, HandlerResult.deferred true true⟩],
           PairOutcome.ranPair true [⟨true, 4, true, HandlerResult.thrown⟩]].map
            runPairTask).map Summary.processed).sum ∧
    runPairTask PairOutcome.failedPair = zeroSummary :=
  ⟨(pair_summary_aggregation
      [PairOutcome.failedPair,
       PairOutcome.ranPair true [⟨true, 0, true, HandlerResult.deferred true true⟩],
       PairOutcome.ranPair true [⟨true, 4, true, HandlerResult.thrown⟩]]).1,
   (pair_summary_aggregation
      [PairOutcome.failedPair,
       PairOutcome.ranPair true [⟨true, 0, true, HandlerResult.deferred true true⟩],
       PairOutcome.ranPair true [⟨true, 4, true, HandlerResult.thrown⟩]]).2.2.2.2.2.2⟩

/-! ### Claim C9: the concurrency bound and failure isolation -/

/-- Modelled from the spec: the bounded-concurrency primitive used by
`runRecursiveMode` is the external `p-limit` package, which is not part of
this repository's sources; the spec describes it as "a counting semaphore
of capacity C".  The semaphore state counts running and queued tasks. -/
structure LimiterState where
  active : Nat
  queued : Nat
deriving DecidableEq, Repr

/-- Modelled from the spec: the two events the counting semaphore reacts
to — a task being handed to the limiter, and a running task finishing. -/
inductive LimiterEvent
  | submitTask
  | finishTask
deriving DecidableEq, Repr

/-- Modelled from the spec: a submitted task starts at once when fewer than
`capacity` tasks are active, otherwise it queues; a finishing task hands
its slot to a queued task when one is waiting. -/
def limiterStep (capacity : Nat) (s : LimiterState) : LimiterEvent → LimiterState
  | .submitTask =>
      if s.active < capacity then ⟨s.active + 1, s.queued⟩ else ⟨s.active, s.queued + 1⟩
  | .finishTask =>
      if 0 < s.queued then ⟨s.active, s.queued - 1⟩ else ⟨s.active - 1, s.queued⟩

/-- A whole run of the limiter from the idle state. -/
def runLimiter (capacity : Nat) (events : List LimiterEvent) : LimiterState :=
  events.foldl (limiterStep capacity) ⟨0, 0⟩

lemma limiterStep_active_le (capacity : Nat) (s : LimiterState) (e : LimiterEvent)
    (h : s.active ≤ capacity) : (limiterStep capacity s e).active ≤ capacity := by
  cases e <;> unfold limiterStep <;> dsimp only <;> split <;> dsimp only <;> omega

lemma foldl_limiterStep_active_le (capacity : Nat) :
    ∀ (events : List LimiterEvent) (s : LimiterState), s.active ≤ capacity →
      (events.foldl (limiterStep capacity) s).active ≤ capacity
  | [], s, h => by simpa using h
  | e :: events, s, h => by
      rw [List.foldl_cons]
      exact foldl_limiterStep_active_le capacity events _
        (limiterStep_active_le capacity s e h)

/-- Claim C9: under the spec-modelled p-limit semaphore the number of
active sessions never exceeds the capacity after any event sequence; and
pair tasks are isolated — each pair's summary is a function of that pair's
own script alone, so replacing (e.g. failing) any other pair's task leaves
it unchanged. -/
theorem concurrency_bound_and_isolation (capacity : Nat) :
    (∀ events : List LimiterEvent, (runLimiter capacity events).active ≤ capacity) ∧
    (∀ (tasks : List PairOutcome) (i : Nat),
        (tasks.map runPairTask).get? i = (tasks.get? i).map runPairTask) ∧
    (∀ (tasks : List PairOutcome) (i j : Nat) (t : PairOutcome), j ≠ i →
        ((tasks.set j t).map runPairTask).get? i = (tasks.map runPairTask).get? i) := by
  refine ⟨?_, ?_, ?_⟩
  · intro events
    exact foldl_limiterStep_active_le capacity events ⟨0, 0⟩ (by simp)
  · intro tasks i
    exact List.get?_map runPairTask tasks i
  · intro tasks i j t hji
    rw [List.get?_map, List.get?_map, List.get?_set_ne t tasks hji]

/-- Claim C9 witness: the bound instantiated at capacity 2 on a concrete
event sequence, and isolation instantiated on a concrete task list. -/
theorem concurrency_bound_and_isolation_witness :
    (runLimiter 2 [LimiterEvent.submitTask, LimiterEvent.submitTask,
        LimiterEvent.submitTask, LimiterEvent.finishTask]).active ≤ 2 ∧
    (([PairOutcome.failedPair, PairOutcome.ranPair true []].set 0
          (PairOutcome.ranPair false [])).map runPairTask).get? 1 =
      ([PairOutcome.failedPair, PairOutcome.ranPair true []].map runPairTask).get? 1 :=
  ⟨(concurrency_bound_and_isolation 2).1
      [LimiterEvent.submitTask, LimiterEvent.submitTask,
       LimiterEvent.submitTask, LimiterEvent.finishTask],
   (concurrency_bound_and_isolation 2).2.2
      [PairOutcome.failedPair, PairOutcome.ranPair true []] 1 0
      (PairOutcome.ranPair false []) (by decide)⟩

end ImageFromImage
